import Mathlib

/-!
Verification of the kwachatracker backend's sync-and-insight pipeline.

Shallow embedding of the Go sources:
* `internal/database` + `internal/handlers` sync handler (`SyncHandler.Sync`,
  `SyncHandler.GetTransactions`),
* `internal/handlers/admin.go` insights handlers (`InsightsHandler.GenerateInsights`,
  `InsightsHandler.RunDailyAnalysis`, `InsightsHandler.fetchSpendingData`),
* `internal/services/gemini.go` (`AnalyzeSpending`, `parseInsights`,
  `fallbackInsights`, `GenerateNotificationText`),
* `cmd/server/main.go` (`startDailyScheduler`).

Modelling conventions:
* Monetary amounts are `DECIMAL(15, 2)` columns summed inside PostgreSQL, i.e.
  exact multiples of 0.01; they are modelled as integers counting hundredths
  (cents) of a kwacha.
* Timestamps are Unix milliseconds (`Int`), matching `time.UnixMilli(t.Date)`.
* The relational store is the list of rows of the `transactions` table; the
  `UNIQUE(user_id, sms_hash)` constraint is modelled by the conflict check the
  `ON CONFLICT ... DO NOTHING` upsert performs against that store.
* External effects (the database driver failing an individual `INSERT`, the
  commit, the Gemini HTTP call, `encoding/json` unmarshalling, FCM delivery)
  are supplied as explicit oracle parameters, so every theorem quantifies over
  their outcomes.
-/

namespace KwachaTracker

/-- Embedding of `models.TransactionInput`: one candidate transaction of a sync batch.
`amount` is in hundredths of a kwacha, `date` in Unix milliseconds. -/
structure TransactionInput where
  amount : Int
  type : String
  category : String
  operator : String
  smsHash : Int
  date : Int
deriving DecidableEq, Repr

/-- One row of the `transactions` table: the owning user plus the candidate
data that was inserted for it. -/
structure StoredTxn where
  userId : String
  txn : TransactionInput
deriving DecidableEq, Repr

/-- The `transactions` table, as the list of its rows. -/
abbrev Store := List StoredTxn

/-- Whether the store already contains a row with the given
`(user_id, sms_hash)` key — the `UNIQUE(user_id, sms_hash)` constraint that
makes the upsert's `ON CONFLICT` clause fire. -/
def hasKey (store : Store) (userId : String) (h : Int) : Bool :=
  store.any fun s => s.userId = userId && s.txn.smsHash = h

/-- Counts reported by the sync endpoint
(`inserted`, `skipped`, `total` fields of the JSON response). -/
structure SyncResult where
  inserted : Nat
  skipped : Nat
  total : Nat
deriving DecidableEq, Repr

/-- Non-success outcomes of `SyncHandler.Sync`: the consent gate
(HTTP 403) and a failed batch commit (HTTP 500). -/
inductive SyncResponse where
  | forbidden
  | commitFailed
  | completed (result : SyncResult)
deriving DecidableEq, Repr

/-- Accumulator of the per-item upsert loop in `SyncHandler.Sync`:
the store as seen inside the open database transaction plus the two
counters. -/
structure LoopState where
  store : Store
  inserted : Nat
  skipped : Nat
deriving DecidableEq, Repr

/-- The per-item loop of `SyncHandler.Sync`. For each candidate: if the
`INSERT` itself errors (oracle `execFails`) the item is counted skipped and
the loop continues; otherwise the upsert inserts unless the
`(user_id, sms_hash)` key is already present (`ON CONFLICT ... DO NOTHING`,
`RowsAffected = 0`), in which case the duplicate is counted skipped. -/
def syncLoop (userId : String) (execFails : TransactionInput → Bool) :
    List TransactionInput → LoopState → LoopState
  | [], s => s
  | t :: rest, s =>
    if execFails t then
      syncLoop userId execFails rest { s with skipped := s.skipped + 1 }
    else if hasKey s.store userId t.smsHash then
      syncLoop userId execFails rest { s with skipped := s.skipped + 1 }
    else
      syncLoop userId execFails rest
        { store := ⟨userId, t⟩ :: s.store, inserted := s.inserted + 1, skipped := s.skipped }

/-- Embedding of `SyncHandler.Sync` after JSON binding: the consent check (403 when the
flag is false), the per-item upsert loop inside one database transaction, and
the commit (oracle `commitOk`; on failure the transaction rolls back and the
store is unchanged). Returns the response together with the resulting store. -/
def sync (consentGiven : Bool) (userId : String) (txns : List TransactionInput)
    (execFails : TransactionInput → Bool) (commitOk : Bool) (store : Store) :
    SyncResponse × Store :=
  if !consentGiven then (.forbidden, store)
  else
    let s := syncLoop userId execFails txns { store := store, inserted := 0, skipped := 0 }
    if commitOk then (.completed ⟨s.inserted, s.skipped, txns.length⟩, s.store)
    else (.commitFailed, store)

/-- The two counters of the loop together advance by exactly one per batch
item, whatever the per-item outcomes are. -/
theorem syncLoop_counts (userId : String) (execFails : TransactionInput → Bool)
    (txns : List TransactionInput) (s : LoopState) :
    (syncLoop userId execFails txns s).inserted + (syncLoop userId execFails txns s).skipped
      = s.inserted + s.skipped + txns.length := by
  induction txns generalizing s with
  | nil => simp [syncLoop]
  | cons t rest ih =>
    by_cases hf : execFails t <;> by_cases hk : hasKey s.store userId t.smsHash <;>
      simp [syncLoop, hf, hk, ih] <;> omega

/-- Key lookup distributes over appending stores. -/
theorem hasKey_append (a b : Store) (u : String) (h : Int) :
    hasKey (a ++ b) u h = (hasKey a u h || hasKey b u h) := by
  simp [hasKey]

/-- Key lookup is insensitive to row order. -/
theorem hasKey_reverse (a : Store) (u : String) (h : Int) :
    hasKey a.reverse u h = hasKey a u h := by
  simp [hasKey]

/-- Running the loop on a batch of well-formed candidates with pairwise
distinct hashes, none of whose keys is in the store, inserts every candidate
(prepending its row) and skips none. -/
theorem syncLoop_fresh (userId : String) (execFails : TransactionInput → Bool)
    (txns : List TransactionInput) (s : LoopState)
    (hwf : ∀ t ∈ txns, execFails t = false)
    (hdist : txns.Pairwise fun a b => a.smsHash ≠ b.smsHash)
    (hfresh : ∀ t ∈ txns, hasKey s.store userId t.smsHash = false) :
    syncLoop userId execFails txns s
      = ⟨(txns.map fun t => ⟨userId, t⟩).reverse ++ s.store,
         s.inserted + txns.length, s.skipped⟩ := by
  induction txns generalizing s with
  | nil => simp [syncLoop]
  | cons t rest ih =>
    have hf : execFails t = false := hwf t (List.mem_cons_self t rest)
    have hk : hasKey s.store userId t.smsHash = false :=
      hfresh t (List.mem_cons_self t rest)
    rw [List.pairwise_cons] at hdist
    have step : syncLoop userId execFails (t :: rest) s
        = syncLoop userId execFails rest
            { store := ⟨userId, t⟩ :: s.store, inserted := s.inserted + 1,
              skipped := s.skipped } := by
      simp [syncLoop, hf, hk]
    rw [step, ih _ (fun t' ht' => hwf t' (List.mem_cons_of_mem t ht')) hdist.2]
    · simp [List.append_assoc]
      omega
    · intro t' ht'
      have hne : t.smsHash ≠ t'.smsHash := hdist.1 t' ht'
      have := hfresh t' (List.mem_cons_of_mem t ht')
      simp [hasKey] at this ⊢
      exact ⟨fun hsh => hne hsh, this⟩

/-- Running the loop on a batch of well-formed candidates all of whose keys
are already in the store skips every candidate and leaves the store
unchanged. -/
theorem syncLoop_allDup (userId : String) (execFails : TransactionInput → Bool)
    (txns : List TransactionInput) (s : LoopState)
    (hwf : ∀ t ∈ txns, execFails t = false)
    (hdup : ∀ t ∈ txns, hasKey s.store userId t.smsHash = true) :
    syncLoop userId execFails txns s = ⟨s.store, s.inserted, s.skipped + txns.length⟩ := by
  induction txns generalizing s with
  | nil => simp [syncLoop]
  | cons t rest ih =>
    have hf : execFails t = false := hwf t (List.mem_cons_self t rest)
    have hk : hasKey s.store userId t.smsHash = true :=
      hdup t (List.mem_cons_self t rest)
    have step : syncLoop userId execFails (t :: rest) s
        = syncLoop userId execFails rest
            { s with skipped := s.skipped + 1 } := by
      simp [syncLoop, hf, hk]
    rw [step, ih { s with skipped := s.skipped + 1 }
      (fun t' ht' => hwf t' (List.mem_cons_of_mem t ht'))
      (fun t' ht' => hdup t' (List.mem_cons_of_mem t ht'))]
    simp
    omega

/-- Every batch candidate's key is present in the store the fresh run built. -/
theorem hasKey_after_fresh (userId : String) (txns : List TransactionInput)
    (store : Store) (t : TransactionInput) (ht : t ∈ txns) :
    hasKey ((txns.map fun t => ⟨userId, t⟩).reverse ++ store) userId t.smsHash = true := by
  rw [hasKey_append, hasKey_reverse]
  have : hasKey (txns.map fun t => (⟨userId, t⟩ : StoredTxn)) userId t.smsHash = true := by
    simp only [hasKey, List.any_eq_true]
    exact ⟨⟨userId, t⟩, List.mem_map_of_mem _ ht, by simp⟩
  simp [this]

/-- Claim C1: a batch of N well-formed transactions with pairwise distinct
content hashes, none already stored for the consenting user, yields
`inserted = N, skipped = 0, total = N` on the first sync; immediately
resubmitting the identical batch yields `inserted = 0, skipped = N, total = N`
and leaves the stored transaction set unchanged. -/
theorem C1_sync_idempotent (userId : String) (txns : List TransactionInput)
    (execFails : TransactionInput → Bool) (store : Store)
    (hwf : ∀ t ∈ txns, execFails t = false)
    (hdist : txns.Pairwise fun a b => a.smsHash ≠ b.smsHash)
    (hfresh : ∀ t ∈ txns, hasKey store userId t.smsHash = false) :
    ∃ store2 : Store,
      sync true userId txns execFails true store
        = (.completed ⟨txns.length, 0, txns.length⟩, store2) ∧
      sync true userId txns execFails true store2
        = (.completed ⟨0, txns.length, txns.length⟩, store2) := by
  refine ⟨(txns.map fun t => ⟨userId, t⟩).reverse ++ store, ?_, ?_⟩
  · have h := syncLoop_fresh userId execFails txns
      { store := store, inserted := 0, skipped := 0 } hwf hdist hfresh
    simp [sync, h]
  · have h := syncLoop_allDup userId execFails txns
      { store := (txns.map fun t => ⟨userId, t⟩).reverse ++ store,
        inserted := 0, skipped := 0 } hwf
      (fun t ht => hasKey_after_fresh userId txns store t ht)
    simp [sync, h]

/-- Claim C1 witness: a concrete two-element batch against an empty store. -/
theorem C1_sync_idempotent_witness :
    ∃ store2 : Store,
      sync true "u1"
        [⟨1500, "INCOME", "PAYMENT", "MTN", 11, 0⟩,
         ⟨200, "EXPENSE", "AIRTIME", "MTN", 22, 0⟩]
        (fun _ => false) true []
        = (.completed ⟨2, 0, 2⟩, store2) ∧
      sync true "u1"
        [⟨1500, "INCOME", "PAYMENT", "MTN", 11, 0⟩,
         ⟨200, "EXPENSE", "AIRTIME", "MTN", 22, 0⟩]
        (fun _ => false) true store2
        = (.completed ⟨0, 2, 2⟩, store2) :=
  C1_sync_idempotent "u1"
    [⟨1500, "INCOME", "PAYMENT", "MTN", 11, 0⟩,
     ⟨200, "EXPENSE", "AIRTIME", "MTN", 22, 0⟩]
    (fun _ => false) []
    (by intro t _; rfl)
    (by simp [List.pairwise_cons])
    (by intro t _; rfl)

/-- Claim C2: a sync request for a user whose consent flag is false is
rejected with the permission error and the stored transaction set is
returned unchanged — no candidate of the batch is inserted, whatever the
batch, the per-item oracle and the commit outcome are. -/
theorem C2_consent_gate (userId : String) (txns : List TransactionInput)
    (execFails : TransactionInput → Bool) (commitOk : Bool) (store : Store) :
    sync false userId txns execFails commitOk store = (.forbidden, store) := by
  simp [sync]

/-- Claim C10: every sync that passes the consent check and commits reports
counts with `inserted + skipped = total` and `total` the length of the
submitted batch, for every batch, store and per-item failure oracle. -/
theorem C10_sync_counts_partition (userId : String) (txns : List TransactionInput)
    (execFails : TransactionInput → Bool) (store : Store) :
    ∃ (result : SyncResult) (store2 : Store),
      sync true userId txns execFails true store = (.completed result, store2)
        ∧ result.inserted + result.skipped = result.total
        ∧ result.total = txns.length := by
  refine ⟨⟨(syncLoop userId execFails txns ⟨store, 0, 0⟩).inserted,
           (syncLoop userId execFails txns ⟨store, 0, 0⟩).skipped, txns.length⟩,
          (syncLoop userId execFails txns ⟨store, 0, 0⟩).store, ?_, ?_, rfl⟩
  · simp [sync]
  · simpa using syncLoop_counts userId execFails txns ⟨store, 0, 0⟩

/-- The pagination of `SyncHandler.GetTransactions`: the limit starts at 50
and is replaced by the parsed `limit` query parameter only when
`parsed > 0 && parsed <= 100`. `none` stands for an absent or unparseable
parameter (`fmt.Sscanf` is external). -/
def effectiveLimit (requested : Option Int) : Int :=
  match requested with
  | none => 50
  | some parsed => if parsed > 0 ∧ parsed ≤ 100 then parsed else 50

/-- The offset of `SyncHandler.GetTransactions`: starts at 0 and is replaced
by the parsed `offset` query parameter only when `parsed >= 0`. -/
def effectiveOffset (requested : Option Int) : Int :=
  match requested with
  | none => 0
  | some parsed => if parsed ≥ 0 then parsed else 0

/-- Claim C3 counterexample: a requested page size of 150 is not clamped to
the hard cap 100 — the handler falls back to the default 50 instead. -/
theorem C3_limit_not_clamped_counterexample :
    effectiveLimit (some 150) = 50 ∧ effectiveLimit (some 150) ≠ 100 := by
  constructor <;> decide

/-- Claim C3 (amended): the effective page size is the requested value when
0 < requested ≤ 100, and the default 50 in every other case — in particular a
request above 100 falls back to 50 rather than being clamped to 100; the
effective offset is the requested offset when non-negative, else 0. -/
theorem C3_pagination_bounds :
    (∀ p : Int, 0 < p → p ≤ 100 → effectiveLimit (some p) = p) ∧
    (∀ p : Int, 100 < p → effectiveLimit (some p) = 50) ∧
    (∀ p : Int, p ≤ 0 → effectiveLimit (some p) = 50) ∧
    effectiveLimit none = 50 ∧
    (∀ o : Int, 0 ≤ o → effectiveOffset (some o) = o) ∧
    (∀ o : Int, o < 0 → effectiveOffset (some o) = 0) ∧
    effectiveOffset none = 0 := by
  refine ⟨?_, ?_, ?_, rfl, ?_, ?_, rfl⟩
  · intro p h1 h2
    simp [effectiveLimit, h1, h2]
  · intro p h
    simp [effectiveLimit]
    omega
  · intro p h
    simp [effectiveLimit]
    omega
  · intro o h
    simp [effectiveOffset, h]
  · intro o h
    simp [effectiveOffset]
    omega

/-- Claim C3 witness: concrete pagination inputs exercising every branch of
the amended claim. -/
theorem C3_pagination_bounds_witness :
    effectiveLimit (some 70) = 70 ∧ effectiveLimit (some 150) = 50 ∧
    effectiveLimit (some 0) = 50 ∧ effectiveOffset (some 30) = 30 ∧
    effectiveOffset (some (-4)) = 0 :=
  ⟨C3_pagination_bounds.1 70 (by decide) (by decide),
   C3_pagination_bounds.2.1 150 (by decide),
   C3_pagination_bounds.2.2.1 0 (by decide),
   C3_pagination_bounds.2.2.2.2.1 30 (by decide),
   C3_pagination_bounds.2.2.2.2.2.1 (-4) (by decide)⟩

/-- One day in Unix milliseconds. -/
def dayMs : Int := 86400000

/-- Start of the aggregation window computed at the top of
`InsightsHandler.fetchSpendingData`: daily is one day back, weekly seven days,
monthly one calendar month via `AddDate(0, -1, 0)` (modelled as 30 days; the
claims never depend on the exact monthly length), any other keyword defaults
to daily. The query only applies `date >= startDate` — there is no upper
bound. -/
def periodStart (now : Int) : String → Int
  | "daily" => now - dayMs
  | "weekly" => now - 7 * dayMs
  | "monthly" => now - 30 * dayMs
  | _ => now - dayMs

/-- Embedding of `services.SpendingData`: the transient aggregate. `byCategory` models the
Go map (a lookup of an absent category yields 0, exactly as summing the empty
group does). The `TopMerchants` and `PreviousPeriod` fields are never
populated anywhere in the repository and are omitted. -/
structure SpendingData where
  userId : String
  period : String
  totalIncome : Int
  totalExpenses : Int
  netBalance : Int
  byCategory : String → Int
  transactionCount : Nat
  savingsDeposits : Int

/-- The rows the aggregate queries range over:
`WHERE user_id = $1 AND date >= $2`. -/
def windowRows (store : Store) (uid : String) (startDate : Int) : Store :=
  store.filter fun s => s.userId = uid && startDate ≤ s.txn.date

/-- Total `SUM(amount)` over a set of rows. -/
def sumAmounts (rows : Store) : Int :=
  (rows.map fun s => s.txn.amount).sum

/-- Embedding of `InsightsHandler.fetchSpendingData`: conditional sums by `type` and the
row count from the first query, net balance as their difference, the
`GROUP BY category` breakdown over `EXPENSE` rows, and the savings total over
`category = 'SAVINGS' AND type = 'EXPENSE'` rows. -/
def fetchSpendingData (store : Store) (uid period : String) (now : Int) : SpendingData :=
  let startDate := periodStart now period
  let rows := windowRows store uid startDate
  let income := (rows.map fun s => if s.txn.type = "INCOME" then s.txn.amount else 0).sum
  let expenses := (rows.map fun s => if s.txn.type = "EXPENSE" then s.txn.amount else 0).sum
  { userId := uid
    period := period
    totalIncome := income
    totalExpenses := expenses
    netBalance := income - expenses
    byCategory := fun cat =>
      sumAmounts (rows.filter fun s => s.txn.type = "EXPENSE" && s.txn.category = cat)
    transactionCount := rows.length
    savingsDeposits :=
      sumAmounts (rows.filter fun s => s.txn.category = "SAVINGS" && s.txn.type = "EXPENSE") }

/-- Adding a row of another user, or one dated before the window start,
leaves the row set unchanged. -/
theorem windowRows_cons_out (store : Store) (uid : String) (startDate : Int)
    (t : StoredTxn) (h : t.userId ≠ uid ∨ t.txn.date < startDate) :
    windowRows (t :: store) uid startDate = windowRows store uid startDate := by
  rcases h with h | h
  · simp [windowRows, List.filter_cons, h]
  · have h2 : ¬ startDate ≤ t.txn.date := not_le.mpr h
    simp [windowRows, List.filter_cons, h2]

/-- Adding a row of the aggregated user dated on or after the window start
prepends it to the row set. -/
theorem windowRows_cons_in (store : Store) (uid : String) (startDate : Int)
    (t : StoredTxn) (h1 : t.userId = uid) (h2 : startDate ≤ t.txn.date) :
    windowRows (t :: store) uid startDate = t :: windowRows store uid startDate := by
  simp [windowRows, List.filter_cons, h1, h2]

/-- Claim C4 counterexample: a transaction dated one day after `now` lies
outside the requested window `[now - period, now]`, yet it contributes its
full amount to the aggregate's income and count — the query only enforces the
window's lower bound. -/
theorem C4_window_counterexample :
    (fetchSpendingData [⟨"u", ⟨10000, "INCOME", "PAYMENT", "MTN", 1, dayMs⟩⟩]
        "u" "daily" 0).totalIncome = 10000 ∧
    (fetchSpendingData [⟨"u", ⟨10000, "INCOME", "PAYMENT", "MTN", 1, dayMs⟩⟩]
        "u" "daily" 0).transactionCount = 1 ∧
    (0 : Int) < dayMs := by
  refine ⟨?_, ?_, ?_⟩ <;> decide

/-- Claim C4 (amended): over the window the code actually enforces —
`[now - period, ∞)`, bounded below only — the aggregate is correct: net
balance is income minus expenses; a transaction of another user or dated
before the window start contributes to no figure; a transaction of the user
dated on or after the window start contributes its amount to total income
exactly when its kind is INCOME, to total expenses exactly when its kind is
EXPENSE, to the category breakdown exactly when it is an EXPENSE of that
category, to savings deposits exactly when it is an EXPENSE in category
SAVINGS, and always adds one to the transaction count. -/
theorem C4_aggregation :
    (∀ (store : Store) (uid period : String) (now : Int),
      (fetchSpendingData store uid period now).netBalance
        = (fetchSpendingData store uid period now).totalIncome
          - (fetchSpendingData store uid period now).totalExpenses) ∧
    (∀ (store : Store) (uid period : String) (now : Int) (t : StoredTxn) (cat : String),
      t.userId ≠ uid ∨ t.txn.date < periodStart now period →
        (fetchSpendingData (t :: store) uid period now).totalIncome
          = (fetchSpendingData store uid period now).totalIncome ∧
        (fetchSpendingData (t :: store) uid period now).totalExpenses
          = (fetchSpendingData store uid period now).totalExpenses ∧
        (fetchSpendingData (t :: store) uid period now).netBalance
          = (fetchSpendingData store uid period now).netBalance ∧
        (fetchSpendingData (t :: store) uid period now).transactionCount
          = (fetchSpendingData store uid period now).transactionCount ∧
        (fetchSpendingData (t :: store) uid period now).savingsDeposits
          = (fetchSpendingData store uid period now).savingsDeposits ∧
        (fetchSpendingData (t :: store) uid period now).byCategory cat
          = (fetchSpendingData store uid period now).byCategory cat) ∧
    (∀ (store : Store) (uid period : String) (now : Int) (t : StoredTxn) (cat : String),
      t.userId = uid → periodStart now period ≤ t.txn.date →
        (fetchSpendingData (t :: store) uid period now).totalIncome
          = (if t.txn.type = "INCOME" then t.txn.amount else 0)
            + (fetchSpendingData store uid period now).totalIncome ∧
        (fetchSpendingData (t :: store) uid period now).totalExpenses
          = (if t.txn.type = "EXPENSE" then t.txn.amount else 0)
            + (fetchSpendingData store uid period now).totalExpenses ∧
        (fetchSpendingData (t :: store) uid period now).transactionCount
          = (fetchSpendingData store uid period now).transactionCount + 1 ∧
        (fetchSpendingData (t :: store) uid period now).savingsDeposits
          = (if t.txn.category = "SAVINGS" ∧ t.txn.type = "EXPENSE" then t.txn.amount else 0)
            + (fetchSpendingData store uid period now).savingsDeposits ∧
        (fetchSpendingData (t :: store) uid period now).byCategory cat
          = (if t.txn.type = "EXPENSE" ∧ t.txn.category = cat then t.txn.amount else 0)
            + (fetchSpendingData store uid period now).byCategory cat) := by
  refine ⟨?_, ?_, ?_⟩
  · intro store uid period now
    simp [fetchSpendingData]
  · intro store uid period now t cat h
    have hw := windowRows_cons_out store uid (periodStart now period) t h
    simp [fetchSpendingData, hw]
  · intro store uid period now t cat h1 h2
    have hw := windowRows_cons_in store uid (periodStart now period) t h1 h2
    refine ⟨?_, ?_, ?_, ?_, ?_⟩ <;>
      simp only [fetchSpendingData, hw, sumAmounts, List.filter_cons, List.map_cons,
        List.sum_cons, List.length_cons, Bool.and_eq_true, decide_eq_true_eq] <;>
      split_ifs <;>
      simp_all

/-- Claim C4 witness: a store with one in-window income row; an out-of-window
expense row and an in-window expense row are added and the aggregate moves
exactly as the amended claim states. -/
theorem C4_aggregation_witness :
    (fetchSpendingData [⟨"u", ⟨800, "EXPENSE", "DATA", "MTN", 2, -7000000⟩⟩,
        ⟨"u", ⟨5000, "INCOME", "PAYMENT", "MTN", 1, -1000⟩⟩] "u" "daily" 0).totalExpenses
      = 800 + (fetchSpendingData [⟨"u", ⟨5000, "INCOME", "PAYMENT", "MTN", 1, -1000⟩⟩]
          "u" "daily" 0).totalExpenses ∧
    (fetchSpendingData [⟨"u", ⟨300, "EXPENSE", "DATA", "MTN", 3, -2 * dayMs⟩⟩,
        ⟨"u", ⟨5000, "INCOME", "PAYMENT", "MTN", 1, -1000⟩⟩] "u" "daily" 0).totalExpenses
      = (fetchSpendingData [⟨"u", ⟨5000, "INCOME", "PAYMENT", "MTN", 1, -1000⟩⟩]
          "u" "daily" 0).totalExpenses := by
  constructor
  · have h := (C4_aggregation.2.2 [⟨"u", ⟨5000, "INCOME", "PAYMENT", "MTN", 1, -1000⟩⟩]
      "u" "daily" 0 ⟨"u", ⟨800, "EXPENSE", "DATA", "MTN", 2, -7000000⟩⟩ "DATA"
      rfl (by decide)).2.1
    exact h.trans (by decide)
  · have h := (C4_aggregation.2.1 [⟨"u", ⟨5000, "INCOME", "PAYMENT", "MTN", 1, -1000⟩⟩]
      "u" "daily" 0 ⟨"u", ⟨300, "EXPENSE", "DATA", "MTN", 3, -2 * dayMs⟩⟩ "DATA"
      (Or.inr (by decide))).2.1
    exact h

/-- Embedding of `services.AIInsight`. `generatedAt` is the `time.Now()` stamp in Unix
milliseconds, threaded as an explicit parameter. -/
structure AIInsight where
  title : String
  message : String
  category : String
  priority : String
  generatedAt : Int
deriving DecidableEq, Repr

/-- Shape of one raw insight element decoded by `parseInsights` from the JSON
array. -/
structure RawInsight where
  title : String
  message : String
  category : String
  priority : String
deriving DecidableEq, Repr

/-- Rendering of `fmt.Sprintf` with the `%.0f` verb applied to an amount held
in hundredths of a kwacha: the nearest whole number of kwacha. Go rounds ties
to even; no claim inspects message text, so the tie case is immaterial. -/
def roundK (cents : Int) : Int := (cents + 50) / 100

/-- Embedding of Go's `strings.TrimPrefix`. -/
def trimPre (s p : String) : String := if s.startsWith p then s.drop p.length else s

/-- Embedding of Go's `strings.TrimSuffix`. -/
def trimSuf (s p : String) : String := if s.endsWith p then s.dropRight p.length else s

/-- The code-fence cleanup at the top of `parseInsights`: trim whitespace,
strip an optional leading code fence and trailing fence, trim again. -/
def cleanResponse (r : String) : String :=
  (trimSuf (trimPre (trimPre r.trim "```json") "```") "```").trim

/-- Embedding of `GeminiService.parseInsights`: clean the response and decode it as a JSON
array of raw insights (`unmarshal` stands for `encoding/json`, which is
external to the repository); each decoded element is stamped with the current
time. Decoding failure is returned as an error. -/
def parseInsights (now : Int) (unmarshal : String → Option (List RawInsight))
    (response : String) : Except String (List AIInsight) :=
  match unmarshal (cleanResponse response) with
  | none => .error "failed to unmarshal insights"
  | some raws => .ok (raws.map fun r => ⟨r.title, r.message, r.category, r.priority, now⟩)

/-- Embedding of `GeminiService.fallbackInsights`: a savings congratulation when savings
deposits are positive, then a positive-balance tip when the net balance is
positive, or a spending alert when it is negative. -/
def fallbackInsights (now : Int) (data : SpendingData) : List AIInsight :=
  (if data.savingsDeposits > 0 then
    [{ title := "💰 Great Saving Habit!"
       message := "You've saved K" ++ toString (roundK data.savingsDeposits)
         ++ " this period. Keep it up!"
       category := "savings", priority := "high", generatedAt := now }]
   else []) ++
  (if data.netBalance > 0 then
    [{ title := "📈 Positive Balance"
       message := "Your income exceeds expenses by K" ++ toString (roundK data.netBalance)
         ++ ". Consider saving the surplus!"
       category := "tip", priority := "medium", generatedAt := now }]
   else if data.netBalance < 0 then
    [{ title := "⚠️ Spending Alert"
       message := "You've spent K" ++ toString (roundK (-data.netBalance))
         ++ " more than earned. Review your expenses."
       category := "spending", priority := "high", generatedAt := now }]
   else [])

/-- Embedding of `GeminiService.AnalyzeSpending`: one external generation attempt
(`callResult` is the outcome of `generateContent`); a transport or status
error propagates as a generation failure; on success the text is parsed, and
a parse failure is replaced by the fallback insights without error. -/
def analyzeSpending (now : Int) (data : SpendingData)
    (callResult : Except String String)
    (unmarshal : String → Option (List RawInsight)) : Except String (List AIInsight) :=
  match callResult with
  | .error e => .error ("failed to generate content: " ++ e)
  | .ok response =>
    match parseInsights now unmarshal response with
    | .error _ => .ok (fallbackInsights now data)
    | .ok insights => .ok insights

/-- Zero value of `AIInsight` (`var best AIInsight` in Go). -/
def zeroInsight : AIInsight := ⟨"", "", "", "", 0⟩

/-- Embedding of `GeminiService.GenerateNotificationText`: a canned pair for an empty
list, otherwise the `best` selection loop over the insights. -/
def generateNotificationText (insights : List AIInsight) : String × String :=
  if insights.length = 0 then
    ("📊 Daily Summary", "Check your spending insights in the app!")
  else
    let best := insights.foldl
      (fun best i => if i.priority = "high" || best.title = "" then i else best) zeroInsight
    (best.title, best.message)

/-- Claim C6: when the response cannot be decoded, `AnalyzeSpending` returns
without error exactly the fallback set: one savings congratulation exactly
when savings deposits are positive, one positive-balance insight exactly when
the net balance is positive, one spending alert exactly when it is negative
(hence neither balance insight when the net balance is zero). -/
theorem C6_fallback_determinism (now : Int) (data : SpendingData) (response : String)
    (unmarshal : String → Option (List RawInsight))
    (hfail : unmarshal (cleanResponse response) = none) :
    analyzeSpending now data (.ok response) unmarshal = .ok (fallbackInsights now data) ∧
    (fallbackInsights now data).countP (fun i => i.title = "💰 Great Saving Habit!")
      = (if 0 < data.savingsDeposits then 1 else 0) ∧
    (fallbackInsights now data).countP (fun i => i.title = "📈 Positive Balance")
      = (if 0 < data.netBalance then 1 else 0) ∧
    (fallbackInsights now data).countP (fun i => i.title = "⚠️ Spending Alert")
      = (if data.netBalance < 0 then 1 else 0) := by
  refine ⟨by simp [analyzeSpending, parseInsights, hfail], ?_, ?_, ?_⟩ <;>
  · simp only [fallbackInsights]
    split_ifs <;>
      simp [List.countP_append, List.countP_cons, List.countP_nil] <;>
      omega

/-- Claim C6 witness: a net balance of +500 kwacha (50000 hundredths) with
zero savings and an undecodable response yields exactly the fallback set with
one positive-balance insight and no spending alert. -/
theorem C6_fallback_determinism_witness :
    analyzeSpending 7 ⟨"u", "daily", 50000, 0, 50000, fun _ => 0, 3, 0⟩
        (.ok "oops") (fun _ => none)
      = .ok (fallbackInsights 7 ⟨"u", "daily", 50000, 0, 50000, fun _ => 0, 3, 0⟩) ∧
    (fallbackInsights 7 ⟨"u", "daily", 50000, 0, 50000, fun _ => 0, 3, 0⟩).countP
        (fun i => i.title = "📈 Positive Balance") = 1 ∧
    (fallbackInsights 7 ⟨"u", "daily", 50000, 0, 50000, fun _ => 0, 3, 0⟩).countP
        (fun i => i.title = "⚠️ Spending Alert") = 0 := by
  have h := C6_fallback_determinism 7 ⟨"u", "daily", 50000, 0, 50000, fun _ => 0, 3, 0⟩
    "oops" (fun _ => none) rfl
  exact ⟨h.1, by rw [h.2.2.1]; decide, by rw [h.2.2.2]; decide⟩

/-- Claim C7 counterexample: with two high-priority insights the selection
loop keeps overwriting `best`, so the notification carries the second (last)
high-priority insight, not the first. -/
theorem C7_notification_counterexample :
    generateNotificationText
        [⟨"A", "ma", "tip", "high", 0⟩, ⟨"B", "mb", "tip", "high", 0⟩] = ("B", "mb") ∧
    (("B", "mb") : String × String) ≠ ("A", "ma") := by
  exact ⟨rfl, by decide⟩

/-- Prepending an element to a list shifts the default of a `getLast?`
lookup. -/
theorem getD_getLast?_cons {α : Type} (i b : α) (fl : List α) :
    ((i :: fl).getLast?).getD b = (fl.getLast?).getD i := by
  cases fl with
  | nil => rfl
  | cons j l =>
    rw [List.getLast?_cons_cons,
      List.getLast?_eq_getLast_of_ne_nil (l := j :: l) (by simp)]
    rfl

/-- The selection loop of `GenerateNotificationText`: started from an
accumulator with a non-empty title, over insights with non-empty titles, it
returns the last high-priority insight, defaulting to the accumulator. -/
theorem foldBest_eq (l : List AIInsight) (b : AIInsight) (hb : b.title ≠ "")
    (hl : ∀ i ∈ l, i.title ≠ "") :
    l.foldl (fun best i => if i.priority = "high" || best.title = "" then i else best) b
      = ((l.filter fun i => i.priority = "high").getLast?).getD b := by
  induction l generalizing b with
  | nil => simp
  | cons i l ih =>
    rw [List.foldl_cons]
    by_cases hp : i.priority = "high"
    · have hstep : (if i.priority = "high" || b.title = "" then i else b) = i := by
        simp [hp]
      rw [hstep, ih i (hl i (List.mem_cons_self i l))
        (fun j hj => hl j (List.mem_cons_of_mem i hj))]
      rw [List.filter_cons_of_pos (by simp [hp])]
      exact (getD_getLast?_cons i b _).symm
    · have hstep : (if i.priority = "high" || b.title = "" then i else b) = b := by
        simp [hp, hb]
      rw [hstep, ih b hb (fun j hj => hl j (List.mem_cons_of_mem i hj)),
        List.filter_cons_of_neg (by simp [hp])]

/-- Claim C7 (amended): for a non-empty insight list whose titles are all
non-empty, the push reduction returns the title and message of the last
high-priority insight in list order when one exists, else those of the first
insight in the list. -/
theorem C7_notification_text (insights : List AIInsight) (hne : insights ≠ [])
    (htitles : ∀ i ∈ insights, i.title ≠ "") :
    generateNotificationText insights
      = ((((insights.filter fun i => i.priority = "high").getLast?).getD
            (insights.headD zeroInsight)).title,
         (((insights.filter fun i => i.priority = "high").getLast?).getD
            (insights.headD zeroInsight)).message) := by
  cases insights with
  | nil => exact absurd rfl hne
  | cons i l =>
    have hi : i.title ≠ "" := htitles i (List.mem_cons_self i l)
    have hstep : (if i.priority = "high" || zeroInsight.title = "" then i else zeroInsight)
        = i := by
      simp [zeroInsight]
    simp only [generateNotificationText, List.length_cons, List.headD_cons]
    rw [if_neg (by omega), List.foldl_cons, hstep,
      foldBest_eq l i hi (fun j hj => htitles j (List.mem_cons_of_mem i hj))]
    by_cases hp : i.priority = "high"
    · rw [List.filter_cons_of_pos (by simp [hp]), getD_getLast?_cons i i]
    · rw [List.filter_cons_of_neg (by simp [hp])]

/-- Claim C7 witness: one low- and two high-priority insights; the
notification carries the last high-priority one. -/
theorem C7_notification_text_witness :
    generateNotificationText
        [⟨"Low", "m1", "tip", "low", 0⟩, ⟨"H1", "m2", "tip", "high", 0⟩,
         ⟨"H2", "m3", "tip", "high", 0⟩] = ("H2", "m3") := by
  rw [C7_notification_text _ (by decide) (by decide)]
  rfl

/-- Claim C8 counterexample: an aggregate with one transaction, zero savings
and zero net balance, together with an undecodable response, makes the
generator return successfully with an empty insight list — fewer than the
claimed minimum of two. -/
theorem C8_count_counterexample :
    analyzeSpending 0 ⟨"u", "daily", 0, 0, 0, fun _ => 0, 1, 0⟩
        (.ok "oops") (fun _ => none) = .ok ([] : List AIInsight) ∧
    (⟨"u", "daily", 0, 0, 0, fun _ => 0, 1, 0⟩ : SpendingData).transactionCount ≠ 0 ∧
    ¬ 2 ≤ ([] : List AIInsight).length := by
  refine ⟨rfl, by decide, by decide⟩

/-- Claim C8 (amended): the code enforces no 2–3 bound on the insight count.
The fallback path returns at most two insights (and possibly zero); the parse
path returns exactly one insight per element of the decoded response array,
whatever its length. -/
theorem C8_insight_counts (now : Int) (data : SpendingData) (response : String)
    (unmarshal : String → Option (List RawInsight)) :
    (fallbackInsights now data).length ≤ 2 ∧
    (∀ raws, unmarshal (cleanResponse response) = some raws →
      ∃ out, analyzeSpending now data (.ok response) unmarshal = .ok out
        ∧ out.length = raws.length) := by
  constructor
  · simp only [fallbackInsights]
    split_ifs <;> simp
  · intro raws h
    exact ⟨raws.map fun r => ⟨r.title, r.message, r.category, r.priority, now⟩,
      by simp [analyzeSpending, parseInsights, h], by simp⟩

/-- Claim C8 witness: a concrete aggregate whose fallback has at most two
insights, and a decoded four-element array producing four insights. -/
theorem C8_insight_counts_witness :
    (fallbackInsights 0 ⟨"u", "daily", 1000, 0, 1000, fun _ => 0, 2, 500⟩).length ≤ 2 ∧
    ∃ out, analyzeSpending 0 ⟨"u", "daily", 1000, 0, 1000, fun _ => 0, 2, 500⟩
        (.ok "resp")
        (fun _ => some [⟨"a", "b", "c", "d"⟩, ⟨"e", "f", "g", "h"⟩,
          ⟨"i", "j", "k", "l"⟩, ⟨"m", "n", "o", "p"⟩]) = .ok out
      ∧ out.length = 4 := by
  have h := C8_insight_counts 0 ⟨"u", "daily", 1000, 0, 1000, fun _ => 0, 2, 500⟩ "resp"
    (fun _ => some [⟨"a", "b", "c", "d"⟩, ⟨"e", "f", "g", "h"⟩,
      ⟨"i", "j", "k", "l"⟩, ⟨"m", "n", "o", "p"⟩])
  obtain ⟨out, h1, h2⟩ := h.2 _ rfl
  exact ⟨h.1, out, h1, h2.trans rfl⟩

/-- Outcome of the on-demand `InsightsHandler.GenerateInsights` endpoint:
HTTP 200 with an empty insight list when the window holds no transactions,
HTTP 500 when the analysis fails, HTTP 200 with the insights otherwise. -/
inductive GenerateResponse where
  | noTransactions
  | failed
  | ok (insights : List AIInsight)
deriving DecidableEq, Repr

/-- Embedding of `InsightsHandler.GenerateInsights`: fetch the daily aggregate, return the
empty success without any external call when the window holds no
transactions, otherwise run `AnalyzeSpending` once (`callResult` models the
`generateContent` call for the aggregate). The second component counts the
external generation calls made while serving the request. -/
def generateInsights (store : Store) (uid : String) (now : Int)
    (callResult : SpendingData → Except String String)
    (unmarshal : String → Option (List RawInsight)) : GenerateResponse × Nat :=
  let data := fetchSpendingData store uid "daily" now
  if data.transactionCount = 0 then (.noTransactions, 0)
  else
    match analyzeSpending now data (callResult data) unmarshal with
    | .error _ => (.failed, 1)
    | .ok insights => (.ok insights, 1)

/-- One row of the scheduler's user query
(`consent_given = true AND fcm_token IS NOT NULL`): the user id and the
scanned token (`sql.NullString`, so possibly invalid). -/
structure SchedUser where
  id : String
  fcmToken : Option String
deriving DecidableEq, Repr

/-- Observable outcome of one `RunDailyAnalysis` sweep: users visited in
order, users for which the external generation call was made, insights
persisted, push deliveries attempted, and the success/error counters the job
logs at the end. -/
structure SweepLog where
  visited : List String
  geminiCalls : List String
  stored : List (String × List AIInsight)
  pushes : List (String × String × String)
  successCount : Nat
  errorCount : Nat
deriving DecidableEq, Repr

/-- The sweep's initial log: both counters zero, nothing visited yet. -/
def emptyLog : SweepLog := ⟨[], [], [], [], 0, 0⟩

/-- The per-user body of the `RunDailyAnalysis` loop. `fetchFails` models a
failing aggregate query (skipped silently like an empty window, via
`continue`); `callResult` models the per-user outcome of `generateContent`;
a generation error increments the error counter and continues; otherwise the
insights are persisted, one push is attempted when a token was scanned (its
failure is only logged — `pushFails` — and changes nothing observable), and
the success counter increments. -/
def processUser (store : Store) (now : Int)
    (fetchFails : String → Bool)
    (callResult : String → SpendingData → Except String String)
    (unmarshal : String → Option (List RawInsight))
    (pushFails : String → Bool)
    (log : SweepLog) (u : SchedUser) : SweepLog :=
  let log := { log with visited := log.visited ++ [u.id] }
  if fetchFails u.id then log
  else
    let data := fetchSpendingData store u.id "daily" now
    if data.transactionCount = 0 then log
    else
      let log := { log with geminiCalls := log.geminiCalls ++ [u.id] }
      match analyzeSpending now data (callResult u.id data) unmarshal with
      | .error _ => { log with errorCount := log.errorCount + 1 }
      | .ok insights =>
        let log := { log with stored := log.stored ++ [(u.id, insights)] }
        let log :=
          match u.fcmToken with
          | some _ =>
            let nt := generateNotificationText insights
            { log with pushes := log.pushes ++ [(u.id, nt.1, nt.2)] }
          | none => log
        { log with successCount := log.successCount + 1 }

/-- Embedding of `InsightsHandler.RunDailyAnalysis`: one full sweep over the consenting
users with tokens, starting from zero counters; no per-user outcome
interrupts the fold. -/
def runDailyAnalysis (store : Store) (now : Int)
    (fetchFails : String → Bool)
    (callResult : String → SpendingData → Except String String)
    (unmarshal : String → Option (List RawInsight))
    (pushFails : String → Bool)
    (users : List SchedUser) : SweepLog :=
  users.foldl (processUser store now fetchFails callResult unmarshal pushFails) emptyLog

/-- Six hours in Unix milliseconds. -/
def sixHoursMs : Int := 21600000

/-- The wake-time computation of `startDailyScheduler`: 06:00 of the current
day (days measured from the epoch on the server's local clock), pushed to the
next day when that instant is already past. -/
def nextSixAM (now : Int) : Int :=
  let next := (now / dayMs) * dayMs + sixHoursMs
  if next < now then next + dayMs else next

/-- Embedding of `startDailyScheduler` with `fuel` remaining days: compute the next wake
instant, sleep until it, run one sweep, and loop unconditionally. `elapse`
models the wall-clock duration of a sweep; the store, user rows and oracles
are held fixed across days. -/
def schedulerRun (store : Store) (fetchFails : String → Bool)
    (callResult : String → SpendingData → Except String String)
    (unmarshal : String → Option (List RawInsight)) (pushFails : String → Bool)
    (users : List SchedUser) (elapse : Int) : Nat → Int → List SweepLog
  | 0, _ => []
  | fuel + 1, now =>
    let wake := nextSixAM now
    runDailyAnalysis store wake fetchFails callResult unmarshal pushFails users
      :: schedulerRun store fetchFails callResult unmarshal pushFails users elapse fuel
          (wake + elapse)

/-- Claim C5: when the user's daily window holds zero transactions, the
on-demand endpoint answers with no insights and makes zero external
generation calls, and the scheduled per-user step changes nothing in the
sweep log beyond marking the user visited — no generation call, no stored
insight, no push, no counter change. -/
theorem C5_empty_short_circuit (store : Store) (uid : String) (now : Int)
    (callResult : SpendingData → Except String String)
    (unmarshal : String → Option (List RawInsight))
    (fetchFails : String → Bool)
    (perUserCall : String → SpendingData → Except String String)
    (pushFails : String → Bool) (log : SweepLog) (tok : Option String)
    (h : (fetchSpendingData store uid "daily" now).transactionCount = 0) :
    generateInsights store uid now callResult unmarshal = (.noTransactions, 0) ∧
    processUser store now fetchFails perUserCall unmarshal pushFails log ⟨uid, tok⟩
      = { log with visited := log.visited ++ [uid] } := by
  constructor
  · simp [generateInsights, h]
  · by_cases hf : fetchFails uid <;> simp [processUser, hf, h]

/-- Claim C5 witness: an empty store short-circuits both pipeline entry
points. -/
theorem C5_empty_short_circuit_witness :
    generateInsights [] "u" 0 (fun _ => .ok "resp") (fun _ => none)
      = (.noTransactions, 0) ∧
    processUser [] 0 (fun _ => false) (fun _ _ => .ok "resp") (fun _ => none)
        (fun _ => false) emptyLog ⟨"u", some "tok"⟩
      = { emptyLog with visited := ["u"] } := by
  have h := C5_empty_short_circuit [] "u" 0 (fun _ => .ok "resp") (fun _ => none)
    (fun _ => false) (fun _ _ => .ok "resp") (fun _ => false) emptyLog (some "tok") rfl
  exact ⟨h.1, h.2.trans (by decide)⟩

/-- Whatever a user's outcome is, the loop body appends exactly the user's id
to `visited`, only appends to the other lists, and only adds to the
counters. -/
theorem processUser_delta (store : Store) (now : Int) (fetchFails : String → Bool)
    (callResult : String → SpendingData → Except String String)
    (unmarshal : String → Option (List RawInsight)) (pushFails : String → Bool)
    (log : SweepLog) (u : SchedUser) :
    ∃ g s p sc ec,
      processUser store now fetchFails callResult unmarshal pushFails log u =
        { visited := log.visited ++ [u.id]
          geminiCalls := log.geminiCalls ++ g
          stored := log.stored ++ s
          pushes := log.pushes ++ p
          successCount := log.successCount + sc
          errorCount := log.errorCount + ec } := by
  by_cases hf : fetchFails u.id
  · exact ⟨[], [], [], 0, 0, by simp [processUser, hf]⟩
  by_cases hc : (fetchSpendingData store u.id "daily" now).transactionCount = 0
  · exact ⟨[], [], [], 0, 0, by simp [processUser, hf, hc]⟩
  cases hg : analyzeSpending now (fetchSpendingData store u.id "daily" now)
      (callResult u.id (fetchSpendingData store u.id "daily" now)) unmarshal with
  | error e => exact ⟨[u.id], [], [], 0, 1, by simp [processUser, hf, hc, hg]⟩
  | ok insights =>
    cases ht : u.fcmToken with
    | some tok =>
      exact ⟨[u.id], [(u.id, insights)],
        [(u.id, (generateNotificationText insights).1, (generateNotificationText insights).2)],
        1, 0, by simp [processUser, hf, hc, hg, ht]⟩
    | none =>
      exact ⟨[u.id], [(u.id, insights)], [], 1, 0, by simp [processUser, hf, hc, hg, ht]⟩

/-- A sweep's fold visits exactly the users of the list, in order, whatever
the per-user outcomes are. -/
theorem foldSweep_visited (store : Store) (now : Int) (fetchFails : String → Bool)
    (callResult : String → SpendingData → Except String String)
    (unmarshal : String → Option (List RawInsight)) (pushFails : String → Bool) :
    ∀ (users : List SchedUser) (log : SweepLog),
      (users.foldl (processUser store now fetchFails callResult unmarshal pushFails)
        log).visited = log.visited ++ users.map (fun u => u.id) := by
  intro users
  induction users with
  | nil => intro log; simp
  | cons u us ih =>
    intro log
    rw [List.foldl_cons, ih]
    obtain ⟨g, s, p, sc, ec, h⟩ := processUser_delta store now fetchFails callResult
      unmarshal pushFails log u
    rw [h]
    simp

/-- Stored insights are never removed by later iterations of the sweep. -/
theorem foldSweep_stored_mono (store : Store) (now : Int) (fetchFails : String → Bool)
    (callResult : String → SpendingData → Except String String)
    (unmarshal : String → Option (List RawInsight)) (pushFails : String → Bool) :
    ∀ (users : List SchedUser) (log : SweepLog) (x : String × List AIInsight),
      x ∈ log.stored →
      x ∈ (users.foldl (processUser store now fetchFails callResult unmarshal pushFails)
            log).stored := by
  intro users
  induction users with
  | nil => intro log x hx; simpa using hx
  | cons u us ih =>
    intro log x hx
    rw [List.foldl_cons]
    apply ih
    obtain ⟨g, s, p, sc, ec, h⟩ := processUser_delta store now fetchFails callResult
      unmarshal pushFails log u
    rw [h]
    exact List.mem_append_left _ hx

/-- Attempted pushes are never removed by later iterations of the sweep. -/
theorem foldSweep_pushes_mono (store : Store) (now : Int) (fetchFails : String → Bool)
    (callResult : String → SpendingData → Except String String)
    (unmarshal : String → Option (List RawInsight)) (pushFails : String → Bool) :
    ∀ (users : List SchedUser) (log : SweepLog) (x : String × String × String),
      x ∈ log.pushes →
      x ∈ (users.foldl (processUser store now fetchFails callResult unmarshal pushFails)
            log).pushes := by
  intro users
  induction users with
  | nil => intro log x hx; simpa using hx
  | cons u us ih =>
    intro log x hx
    rw [List.foldl_cons]
    apply ih
    obtain ⟨g, s, p, sc, ec, h⟩ := processUser_delta store now fetchFails callResult
      unmarshal pushFails log u
    rw [h]
    exact List.mem_append_left _ hx

/-- The error counter never decreases along the sweep. -/
theorem foldSweep_error_mono (store : Store) (now : Int) (fetchFails : String → Bool)
    (callResult : String → SpendingData → Except String String)
    (unmarshal : String → Option (List RawInsight)) (pushFails : String → Bool) :
    ∀ (users : List SchedUser) (log : SweepLog),
      log.errorCount ≤
      (users.foldl (processUser store now fetchFails callResult unmarshal pushFails)
        log).errorCount := by
  intro users
  induction users with
  | nil => intro log; simp
  | cons u us ih =>
    intro log
    rw [List.foldl_cons]
    refine le_trans ?_ (ih _)
    obtain ⟨g, s, p, sc, ec, h⟩ := processUser_delta store now fetchFails callResult
      unmarshal pushFails log u
    rw [h]
    exact Nat.le_add_right _ _

/-- A user whose generation succeeds has the insights persisted by the loop
body. -/
theorem processUser_gen_ok (store : Store) (now : Int) (fetchFails : String → Bool)
    (callResult : String → SpendingData → Except String String)
    (unmarshal : String → Option (List RawInsight)) (pushFails : String → Bool)
    (log : SweepLog) (u : SchedUser) (insights : List AIInsight)
    (hf : fetchFails u.id = false)
    (hc : (fetchSpendingData store u.id "daily" now).transactionCount ≠ 0)
    (hg : analyzeSpending now (fetchSpendingData store u.id "daily" now)
        (callResult u.id (fetchSpendingData store u.id "daily" now)) unmarshal
        = .ok insights) :
    (u.id, insights) ∈ (processUser store now fetchFails callResult unmarshal
      pushFails log u).stored := by
  cases ht : u.fcmToken <;> simp [processUser, hf, hc, hg, ht]

/-- A user whose generation succeeds and whose token was scanned gets one
push attempt from the loop body. -/
theorem processUser_push_attempt (store : Store) (now : Int) (fetchFails : String → Bool)
    (callResult : String → SpendingData → Except String String)
    (unmarshal : String → Option (List RawInsight)) (pushFails : String → Bool)
    (log : SweepLog) (u : SchedUser) (insights : List AIInsight) (tok : String)
    (hf : fetchFails u.id = false)
    (hc : (fetchSpendingData store u.id "daily" now).transactionCount ≠ 0)
    (hg : analyzeSpending now (fetchSpendingData store u.id "daily" now)
        (callResult u.id (fetchSpendingData store u.id "daily" now)) unmarshal
        = .ok insights)
    (ht : u.fcmToken = some tok) :
    (u.id, (generateNotificationText insights).1, (generateNotificationText insights).2)
      ∈ (processUser store now fetchFails callResult unmarshal pushFails log u).pushes := by
  simp [processUser, hf, hc, hg, ht]

/-- A user whose generation fails adds exactly one to the error counter. -/
theorem processUser_gen_error (store : Store) (now : Int) (fetchFails : String → Bool)
    (callResult : String → SpendingData → Except String String)
    (unmarshal : String → Option (List RawInsight)) (pushFails : String → Bool)
    (log : SweepLog) (u : SchedUser) (e : String)
    (hf : fetchFails u.id = false)
    (hc : (fetchSpendingData store u.id "daily" now).transactionCount ≠ 0)
    (hg : analyzeSpending now (fetchSpendingData store u.id "daily" now)
        (callResult u.id (fetchSpendingData store u.id "daily" now)) unmarshal
        = .error e) :
    (processUser store now fetchFails callResult unmarshal pushFails log u).errorCount
      = log.errorCount + 1 := by
  simp [processUser, hf, hc, hg]

/-- The scheduler loop performs exactly one sweep per remaining day of fuel,
whatever the per-user outcomes are. -/
theorem schedulerRun_length (store : Store) (fetchFails : String → Bool)
    (callResult : String → SpendingData → Except String String)
    (unmarshal : String → Option (List RawInsight)) (pushFails : String → Bool)
    (users : List SchedUser) (elapse : Int) :
    ∀ (fuel : Nat) (t : Int),
      (schedulerRun store fetchFails callResult unmarshal pushFails users elapse
        fuel t).length = fuel := by
  intro fuel
  induction fuel with
  | zero => intro t; rfl
  | succ n ih => intro t; simp [schedulerRun, ih]

/-- Claim C9: per-user generation or push failures never abort the daily
sweep: every user of the list is visited exactly once and in order, a user B
whose generation succeeds still has the insights persisted and (when a token
was scanned) one push attempted even though generation failed for user A in
the same sweep, the failure is only counted, push failures change nothing
observable, and the scheduler loop re-arms — running exactly one sweep per
remaining day whatever the outcomes. -/
theorem C9_scheduler_resilience (store : Store) (now : Int)
    (fetchFails : String → Bool)
    (callResult : String → SpendingData → Except String String)
    (unmarshal : String → Option (List RawInsight)) (pushFails : String → Bool)
    (users : List SchedUser) (A B : SchedUser) (insB : List AIInsight) (e : String)
    (hA : A ∈ users) (hB : B ∈ users)
    (hAf : fetchFails A.id = false)
    (hAc : (fetchSpendingData store A.id "daily" now).transactionCount ≠ 0)
    (hAg : analyzeSpending now (fetchSpendingData store A.id "daily" now)
        (callResult A.id (fetchSpendingData store A.id "daily" now)) unmarshal = .error e)
    (hBf : fetchFails B.id = false)
    (hBc : (fetchSpendingData store B.id "daily" now).transactionCount ≠ 0)
    (hBg : analyzeSpending now (fetchSpendingData store B.id "daily" now)
        (callResult B.id (fetchSpendingData store B.id "daily" now)) unmarshal = .ok insB) :
    (runDailyAnalysis store now fetchFails callResult unmarshal pushFails users).visited
        = users.map (fun u => u.id) ∧
    (B.id, insB) ∈ (runDailyAnalysis store now fetchFails callResult unmarshal pushFails
        users).stored ∧
    (∀ tok, B.fcmToken = some tok →
      (B.id, (generateNotificationText insB).1, (generateNotificationText insB).2)
        ∈ (runDailyAnalysis store now fetchFails callResult unmarshal pushFails
            users).pushes) ∧
    1 ≤ (runDailyAnalysis store now fetchFails callResult unmarshal pushFails
        users).errorCount ∧
    (∀ (elapse : Int) (fuel : Nat) (t : Int),
      (schedulerRun store fetchFails callResult unmarshal pushFails users elapse
        fuel t).length = fuel) := by
  refine ⟨?_, ?_, ?_, ?_, ?_⟩
  · simpa [runDailyAnalysis, emptyLog] using
      foldSweep_visited store now fetchFails callResult unmarshal pushFails users emptyLog
  · obtain ⟨l1, l2, rfl⟩ := List.append_of_mem hB
    unfold runDailyAnalysis
    rw [List.foldl_append, List.foldl_cons]
    apply foldSweep_stored_mono
    exact processUser_gen_ok store now fetchFails callResult unmarshal pushFails _ B insB
      hBf hBc hBg
  · intro tok htok
    obtain ⟨l1, l2, rfl⟩ := List.append_of_mem hB
    unfold runDailyAnalysis
    rw [List.foldl_append, List.foldl_cons]
    apply foldSweep_pushes_mono
    exact processUser_push_attempt store now fetchFails callResult unmarshal pushFails _
      B insB tok hBf hBc hBg htok
  · obtain ⟨l1, l2, rfl⟩ := List.append_of_mem hA
    unfold runDailyAnalysis
    rw [List.foldl_append, List.foldl_cons]
    refine le_trans ?_
      (foldSweep_error_mono store now fetchFails callResult unmarshal pushFails l2 _)
    rw [processUser_gen_error store now fetchFails callResult unmarshal pushFails _ A e
      hAf hAc hAg]
    omega
  · exact schedulerRun_length store fetchFails callResult unmarshal pushFails users

/-- Claim C9 witness: two users, each with an in-window transaction; the
stub generator fails for user a and succeeds for user b; both are visited,
b's insight is stored, the failure is counted, and a three-day scheduler run
performs three sweeps. -/
theorem C9_scheduler_resilience_witness :
    (runDailyAnalysis
        [⟨"a", ⟨100, "EXPENSE", "DATA", "MTN", 1, -1000⟩⟩,
         ⟨"b", ⟨100, "EXPENSE", "DATA", "MTN", 2, -1000⟩⟩] 0
        (fun _ => false)
        (fun uid _ => if uid = "a" then .error "boom" else .ok "resp")
        (fun _ => some [⟨"T", "M", "tip", "high"⟩])
        (fun _ => true)
        [⟨"a", some "ta"⟩, ⟨"b", some "tb"⟩]).visited = ["a", "b"] ∧
    ("b", [(⟨"T", "M", "tip", "high", 0⟩ : AIInsight)])
      ∈ (runDailyAnalysis
        [⟨"a", ⟨100, "EXPENSE", "DATA", "MTN", 1, -1000⟩⟩,
         ⟨"b", ⟨100, "EXPENSE", "DATA", "MTN", 2, -1000⟩⟩] 0
        (fun _ => false)
        (fun uid _ => if uid = "a" then .error "boom" else .ok "resp")
        (fun _ => some [⟨"T", "M", "tip", "high"⟩])
        (fun _ => true)
        [⟨"a", some "ta"⟩, ⟨"b", some "tb"⟩]).stored ∧
    1 ≤ (runDailyAnalysis
        [⟨"a", ⟨100, "EXPENSE", "DATA", "MTN", 1, -1000⟩⟩,
         ⟨"b", ⟨100, "EXPENSE", "DATA", "MTN", 2, -1000⟩⟩] 0
        (fun _ => false)
        (fun uid _ => if uid = "a" then .error "boom" else .ok "resp")
        (fun _ => some [⟨"T", "M", "tip", "high"⟩])
        (fun _ => true)
        [⟨"a", some "ta"⟩, ⟨"b", some "tb"⟩]).errorCount ∧
    (schedulerRun
        [⟨"a", ⟨100, "EXPENSE", "DATA", "MTN", 1, -1000⟩⟩,
         ⟨"b", ⟨100, "EXPENSE", "DATA", "MTN", 2, -1000⟩⟩]
        (fun _ => false)
        (fun uid _ => if uid = "a" then .error "boom" else .ok "resp")
        (fun _ => some [⟨"T", "M", "tip", "high"⟩])
        (fun _ => true)
        [⟨"a", some "ta"⟩, ⟨"b", some "tb"⟩] 500 3 0).length = 3 := by
  have h := C9_scheduler_resilience
    [⟨"a", ⟨100, "EXPENSE", "DATA", "MTN", 1, -1000⟩⟩,
     ⟨"b", ⟨100, "EXPENSE", "DATA", "MTN", 2, -1000⟩⟩] 0
    (fun _ => false)
    (fun uid _ => if uid = "a" then .error "boom" else .ok "resp")
    (fun _ => some [⟨"T", "M", "tip", "high"⟩])
    (fun _ => true)
    [⟨"a", some "ta"⟩, ⟨"b", some "tb"⟩]
    ⟨"a", some "ta"⟩ ⟨"b", some "tb"⟩
    [⟨"T", "M", "tip", "high", 0⟩] "failed to generate content: boom"
    (by decide) (by decide) rfl (by decide) rfl rfl (by decide) rfl
  exact ⟨h.1.trans (by decide), h.2.1, h.2.2.2.1, h.2.2.2.2 500 3 0⟩

end KwachaTracker
